import Mathlib

/-!
Verification development for the order-processing core of a MERN product store.

The definitions below are a shallow embedding of the JavaScript source:
- the Order mongoose model (schema methods updateStatus, processPayment,
  processRefund, addTracking and the three pre-save hooks),
- ProductRepository.updateStock and the order repository persistence,
- the OrderService operations createOrder, updateOrderStatus, processPayment,
  processRefund, addTracking and cancelOrder.

Modelling conventions:
- JavaScript numbers that hold money are embedded as rationals; stock counters
  are embedded as integers because the atomic increment can drive them negative.
- The mongo database is a `World`: association lists of products and orders
  plus the set of known user ids. Mutations performed before an exception are
  kept, as they are in the real database.
- A thrown `AppError(msg, code)` is `JsError.appError msg code`; a plain thrown
  `Error(msg)` is `JsError.plainError msg`. Service catch blocks rethrow
  AppErrors and wrap anything else, which `wrapCatch` mirrors.
- `Date.now()` style timestamps are passed in as a `now : Nat` parameter and
  the simulated payment gateway outcome as a `paymentOk : Bool` parameter.
- Mongoose marks a path modified only when it is set to a different value, and
  defaulted paths on a new document are not marked modified; the pre-save
  status-history hook is therefore modelled by comparing the saved status with
  the status the document had when it was loaded.
- Schema min-validators and the notes/address string fields are not modelled;
  no claim depends on them.
-/

inductive OrderStatus
  | pending
  | confirmed
  | processing
  | shipped
  | delivered
  | cancelled
  | refunded
deriving DecidableEq, Fintype

inductive PaymentStatus
  | pending
  | completed
  | failed
  | refunded
deriving DecidableEq

def statusName : OrderStatus → String
  | .pending => "pending"
  | .confirmed => "confirmed"
  | .processing => "processing"
  | .shipped => "shipped"
  | .delivered => "delivered"
  | .cancelled => "cancelled"
  | .refunded => "refunded"

/-- Product document: the fields the order core reads. -/
structure Product where
  name : String
  price : ℚ
  stock : Int
  isActive : Bool
deriving DecidableEq

/-- One line of an order, snapshotted at creation time (image field omitted). -/
structure OrderItem where
  product : Nat
  name : String
  price : ℚ
  quantity : Nat
  total : ℚ
deriving DecidableEq

structure Payment where
  method : String
  status : PaymentStatus
  transactionId : Option String
  paymentDate : Option Nat
  refundDate : Option Nat
  refundAmount : Option ℚ
deriving DecidableEq

structure Shipping where
  trackingNumber : Option String
  shippedDate : Option Nat
deriving DecidableEq

structure HistoryEntry where
  status : OrderStatus
  updatedAt : Nat
  updatedBy : Option Nat
  note : Option String
deriving DecidableEq

structure Order where
  orderNumber : String
  customer : Nat
  items : List OrderItem
  subtotal : ℚ
  tax : ℚ
  shippingCost : ℚ
  discount : ℚ
  total : ℚ
  currency : String
  status : OrderStatus
  payment : Payment
  shipping : Shipping
  statusHistory : List HistoryEntry
deriving DecidableEq

inductive JsError
  | appError (message : String) (statusCode : Nat)
  | plainError (message : String)
deriving DecidableEq

/-- The database: products and orders keyed by id, plus the known users. -/
structure World where
  products : List (Nat × Product)
  orders : List (Nat × Order)
  users : List Nat
deriving DecidableEq

/-- findById on an association list (ids are unique in mongo, first match). -/
def lookupList {α : Type} : List (Nat × α) → Nat → Option α
  | [], _ => none
  | (k, v) :: rest, id => if k = id then some v else lookupList rest id

/-- findByIdAndUpdate: rewrite the first document with the given id, no-op when
absent. -/
def adjustList {α : Type} : List (Nat × α) → Nat → (α → α) → List (Nat × α)
  | [], _, _ => []
  | (k, v) :: rest, id, f =>
      if k = id then (k, f v) :: rest else (k, v) :: adjustList rest id f

def ProductRepository.findById (w : World) (id : Nat) : Option Product :=
  lookupList w.products id

/-- ProductRepository.updateStock: findByIdAndUpdate with an atomic increment
of stock by `quantity`. -/
def ProductRepository.updateStock (w : World) (id : Nat) (quantity : Int) : World :=
  { w with products := adjustList w.products id (fun p => { p with stock := p.stock + quantity }) }

def OrderRepository.findById (w : World) (id : Nat) : Option Order :=
  lookupList w.orders id

/-- Persisting the mutated order document under its id. -/
def OrderRepository.persist (w : World) (id : Nat) (o : Order) : World :=
  { w with orders := adjustList w.orders id (fun _ => o) }

def UserRepository.findById (w : World) (id : Nat) : Option Nat :=
  if w.users.contains id then some id else none

/-- items.reduce((sum, item) => sum + item.total, 0). -/
def itemsTotal (items : List OrderItem) : ℚ :=
  items.foldl (fun acc it => acc + it.total) 0

/-- Pre-save hook: recompute subtotal from the items and the final total. -/
def presaveTotals (o : Order) : Order :=
  let sub := itemsTotal o.items
  { o with subtotal := sub, total := sub + o.tax + o.shippingCost - o.discount }

/-- Pre-save hook: when the status path was modified (set to a value different
from the loaded one), push a history entry. -/
def presaveStatusHistory (loadedStatus : OrderStatus) (now : Nat) (o : Order) : Order :=
  if o.status ≠ loadedStatus then
    { o with statusHistory := o.statusHistory ++ [⟨o.status, now, none, none⟩] }
  else o

/-- document.save() for an already persisted order: the totals hook then the
status-history hook (hooks run in registration order; the order-number hook
only fires on new documents). -/
def Order.save (loadedStatus : OrderStatus) (now : Nat) (o : Order) : Order :=
  presaveStatusHistory loadedStatus now (presaveTotals o)

/-- document.save() for a freshly constructed order: generates the order number
and recomputes totals; the defaulted status path is not marked modified, so the
status-history hook does not fire. -/
def Order.saveNew (now : Nat) (o : Order) : Order :=
  presaveTotals { o with orderNumber := "ORD" ++ toString now }

def validTransitions : OrderStatus → List OrderStatus
  | .pending => [.confirmed, .cancelled]
  | .confirmed => [.processing, .cancelled]
  | .processing => [.shipped, .cancelled]
  | .shipped => [.delivered]
  | .delivered => [.refunded]
  | .cancelled => []
  | .refunded => []

def transitionErrorMessage (fromStatus toStatus : OrderStatus) : String :=
  "Cannot transition from " ++ statusName fromStatus ++ " to " ++ statusName toStatus

/-- orderSchema.methods.updateStatus. -/
def Order.updateStatus (o : Order) (newStatus : OrderStatus) (updatedBy : Option Nat)
    (note : Option String) (now : Nat) : Except JsError Order :=
  if newStatus ∈ validTransitions o.status then
    Except.ok (Order.save o.status now
      { o with
        status := newStatus,
        statusHistory := o.statusHistory ++ [⟨newStatus, now, updatedBy, note⟩] })
  else
    Except.error (JsError.plainError (transitionErrorMessage o.status newStatus))

/-- orderSchema.methods.processPayment. -/
def Order.processPayment (o : Order) (transactionId : String) (now : Nat) : Order :=
  let o1 := { o with payment :=
    { o.payment with status := .completed, transactionId := some transactionId, paymentDate := some now } }
  let o2 :=
    if o1.status = .pending then
      { o1 with
        status := .confirmed,
        statusHistory := o1.statusHistory ++ [⟨.confirmed, now, none, some "Auto-confirmed after payment"⟩] }
    else o1
  Order.save o.status now o2

/-- orderSchema.methods.processRefund: `refundAmount || this.total` falls back
to the total when the argument is zero. -/
def Order.processRefund (o : Order) (refundAmount : ℚ) (now : Nat) : Order :=
  let amount := if refundAmount = 0 then o.total else refundAmount
  Order.save o.status now
    { o with
      payment := { o.payment with status := .refunded, refundDate := some now, refundAmount := some amount },
      status := .refunded,
      statusHistory := o.statusHistory ++ [⟨.refunded, now, none, some ("Refunded $" ++ toString amount)⟩] }

/-- orderSchema.methods.addTracking: transitions to shipped whenever the
current status is anything other than shipped. -/
def Order.addTracking (o : Order) (trackingNumber : String) (shippedDate : Option Nat)
    (now : Nat) : Order :=
  let o1 := { o with shipping :=
    { o.shipping with trackingNumber := some trackingNumber, shippedDate := some (shippedDate.getD now) } }
  let o2 :=
    if o1.status ≠ .shipped then
      { o1 with
        status := .shipped,
        statusHistory := o1.statusHistory ++ [⟨.shipped, now, none, some ("Tracking: " ++ trackingNumber)⟩] }
    else o1
  Order.save o.status now o2

/-- Service catch block: rethrow AppErrors, wrap anything else as a 500. -/
def wrapCatch (fallback : String) : JsError → JsError
  | .appError m c => .appError m c
  | .plainError _ => .appError fallback 500

/-- The order-creation payload after Joi has applied its defaults: items are
(productId, quantity) pairs. -/
structure OrderInput where
  items : List (Nat × Nat)
  paymentMethod : String
  taxRate : ℚ
  shippingCost : ℚ
  discount : ℚ
  currency : String
deriving DecidableEq

def paymentMethods : List String :=
  ["credit_card", "debit_card", "paypal", "bank_transfer", "cash_on_delivery"]

/-- The Joi validateOrder schema, restricted to the constraints the order core
can hit (address string lengths are not modelled). Returns the first error
message, none when valid. -/
def validateOrder (input : OrderInput) : Option String :=
  if input.items.isEmpty then some "Order must contain at least one item"
  else if input.items.any (fun it => it.2 < 1) then some "Quantity must be at least 1"
  else if input.items.any (fun it => 100 < it.2) then some "Quantity cannot exceed 100"
  else if ¬ paymentMethods.contains input.paymentMethod then some "Invalid payment method"
  else if input.taxRate < 0 then some "Tax rate cannot be negative"
  else if 1 < input.taxRate then some "Tax rate cannot exceed 100%"
  else if input.shippingCost < 0 then some "Shipping cost cannot be negative"
  else if input.discount < 0 then some "Discount cannot be negative"
  else none

/-- The item loop of OrderService.createOrder: resolve the product, check the
stock, accumulate the snapshot line and the subtotal, then immediately
decrement the stock. A failure aborts the loop but keeps the decrements
already performed. -/
def createOrderLoop (w : World) :
    List (Nat × Nat) → List OrderItem → ℚ → World × Except JsError (List OrderItem × ℚ)
  | [], acc, subtotal => (w, Except.ok (acc, subtotal))
  | (productId, quantity) :: rest, acc, subtotal =>
    match ProductRepository.findById w productId with
    | none =>
        (w, Except.error (JsError.appError ("Product " ++ toString productId ++ " not found") 404))
    | some product =>
        if product.stock < (quantity : Int) then
          (w, Except.error (JsError.appError
            ("Insufficient stock for " ++ product.name ++ ". Available: " ++ toString product.stock) 400))
        else
          let itemTotal := product.price * (quantity : ℚ)
          let item : OrderItem := ⟨productId, product.name, product.price, quantity, itemTotal⟩
          createOrderLoop (ProductRepository.updateStock w productId (-(quantity : Int)))
            rest (acc ++ [item]) (subtotal + itemTotal)

/-- Fresh order id for the created document. -/
def freshOrderId (w : World) : Nat :=
  (w.orders.map Prod.fst).foldl max 0 + 1

/-- OrderService.createOrder. Cart clearing is a user-document side effect with
no bearing on any claim and is not modelled. -/
def OrderService.createOrder (w : World) (input : OrderInput) (customerId : Nat)
    (now : Nat) : World × Except JsError Order :=
  match validateOrder input with
  | some msg => (w, Except.error (JsError.appError msg 400))
  | none =>
    match UserRepository.findById w customerId with
    | none => (w, Except.error (JsError.appError "Customer not found" 404))
    | some _ =>
      match createOrderLoop w input.items [] 0 with
      | (w1, Except.error e) => (w1, Except.error e)
      | (w1, Except.ok (processedItems, subtotal)) =>
        let tax := subtotal * input.taxRate
        let total := subtotal + tax + input.shippingCost - input.discount
        let order : Order :=
          { orderNumber := ""
            customer := customerId
            items := processedItems
            subtotal := subtotal
            tax := tax
            shippingCost := input.shippingCost
            discount := input.discount
            total := total
            currency := input.currency
            status := .pending
            payment := ⟨input.paymentMethod, .pending, none, none, none, none⟩
            shipping := ⟨none, none⟩
            statusHistory := [] }
        let saved := Order.saveNew now order
        ({ w1 with orders := w1.orders ++ [(freshOrderId w1, saved)] }, Except.ok saved)

/-- The stock-restoration loop shared by updateOrderStatus, processRefund and
cancelOrder. -/
def restoreStock (w : World) (items : List OrderItem) : World :=
  items.foldl (fun acc it => ProductRepository.updateStock acc it.product (it.quantity : Int)) w

/-- OrderService.updateOrderStatus: load, delegate to the model method (a plain
Error from it is wrapped by the catch block), persist, then restore stock when
the new status is cancelled and the loaded order was not already cancelled. -/
def OrderService.updateOrderStatus (w : World) (orderId : Nat) (newStatus : OrderStatus)
    (updatedBy : Option Nat) (note : Option String) (now : Nat) : World × Except JsError Order :=
  match OrderRepository.findById w orderId with
  | none => (w, Except.error (JsError.appError "Order not found" 404))
  | some order =>
    match order.updateStatus newStatus updatedBy note now with
    | Except.error e => (w, Except.error (wrapCatch "Failed to update order status" e))
    | Except.ok updated =>
      let w1 := OrderRepository.persist w orderId updated
      let w2 :=
        if newStatus = .cancelled ∧ order.status ≠ .cancelled then restoreStock w1 order.items
        else w1
      (w2, Except.ok updated)

/-- OrderService.processPayment: the simulated gateway outcome is the
`paymentOk` parameter. -/
def OrderService.processPayment (w : World) (orderId : Nat) (transactionId : String)
    (paymentOk : Bool) (now : Nat) : World × Except JsError Order :=
  match OrderRepository.findById w orderId with
  | none => (w, Except.error (JsError.appError "Order not found" 404))
  | some order =>
    if order.payment.status = .completed then
      (w, Except.error (JsError.appError "Order payment already completed" 400))
    else if paymentOk = false then
      (w, Except.error (JsError.appError "Payment processing failed" 400))
    else
      let updated := order.processPayment transactionId now
      (OrderRepository.persist w orderId updated, Except.ok updated)

/-- OrderService.processRefund. -/
def OrderService.processRefund (w : World) (orderId : Nat) (refundAmount : ℚ)
    (now : Nat) : World × Except JsError Order :=
  match OrderRepository.findById w orderId with
  | none => (w, Except.error (JsError.appError "Order not found" 404))
  | some order =>
    if order.payment.status ≠ .completed then
      (w, Except.error (JsError.appError "Cannot refund unpaid order" 400))
    else if order.total < refundAmount then
      (w, Except.error (JsError.appError "Refund amount cannot exceed order total" 400))
    else
      let updated := order.processRefund refundAmount now
      let w1 := OrderRepository.persist w orderId updated
      (restoreStock w1 order.items, Except.ok updated)

/-- OrderService.addTracking: no status guard at all. -/
def OrderService.addTracking (w : World) (orderId : Nat) (trackingNumber : String)
    (shippedDate : Option Nat) (now : Nat) : World × Except JsError Order :=
  match OrderRepository.findById w orderId with
  | none => (w, Except.error (JsError.appError "Order not found" 404))
  | some order =>
    let updated := order.addTracking trackingNumber shippedDate now
    (OrderRepository.persist w orderId updated, Except.ok updated)

/-- OrderService.cancelOrder: authorization, status gate, transition to
cancelled, stock restoration, then an automatic full refund when the payment
was completed. The repository refund re-loads the freshly persisted cancelled
document; were it missing, the thrown plain Error would be wrapped to a 500. -/
def OrderService.cancelOrder (w : World) (orderId : Nat) (userId : Nat) (userRole : String)
    (reason : Option String) (now : Nat) : World × Except JsError Order :=
  match OrderRepository.findById w orderId with
  | none => (w, Except.error (JsError.appError "Order not found" 404))
  | some order =>
    if userRole ≠ "admin" ∧ order.customer ≠ userId then
      (w, Except.error (JsError.appError "Access denied" 403))
    else if ¬ (order.status = .pending ∨ order.status = .confirmed) then
      (w, Except.error (JsError.appError "Order cannot be cancelled at this stage" 400))
    else
      match order.updateStatus .cancelled (some userId)
          (some (reason.getD "Order cancelled by customer")) now with
      | Except.error e => (w, Except.error (wrapCatch "Failed to cancel order" e))
      | Except.ok updated =>
        let w1 := OrderRepository.persist w orderId updated
        let w2 := restoreStock w1 order.items
        if order.payment.status = .completed then
          match OrderRepository.findById w2 orderId with
          | none => (w2, Except.error (JsError.appError "Failed to cancel order" 500))
          | some current =>
              (OrderRepository.persist w2 orderId (current.processRefund order.total now),
               Except.ok updated)
        else (w2, Except.ok updated)

/-!
Interleaving model for the concurrency claim. In createOrder, the stock
interaction per line item is two separate database operations: an atomic read
(findById) followed by an atomic increment (updateStock); the comparison in
between is thread-local. Two concurrent createOrder calls for a single line of
the same product are modelled as two threads, each performing its read step
and then its check-and-decrement step, interleaved by a schedule.
-/

inductive ThreadCtl
  | start
  | readDone (snapshot : Int)
  | finished (ok : Bool)
deriving DecidableEq

structure ConcState where
  stock : Int
  t1 : ThreadCtl
  t2 : ThreadCtl
deriving DecidableEq

/-- One atomic step of a single createOrder thread requesting `quantity` units:
first the stock read, then (based on the snapshot) either the InsufficientStock
failure or the atomic decrement. -/
def stepThread (quantity : Nat) (stock : Int) : ThreadCtl → Int × ThreadCtl
  | .start => (stock, .readDone stock)
  | .readDone snapshot =>
      if snapshot < (quantity : Int) then (stock, .finished false)
      else (stock - (quantity : Int), .finished true)
  | .finished ok => (stock, .finished ok)

def stepConc (quantity : Nat) (s : ConcState) (first : Bool) : ConcState :=
  if first then
    let r := stepThread quantity s.stock s.t1
    { s with stock := r.1, t1 := r.2 }
  else
    let r := stepThread quantity s.stock s.t2
    { s with stock := r.1, t2 := r.2 }

/-- Run both threads under a schedule (true steps the first thread). -/
def runConc (quantity : Nat) (sched : List Bool) (s : ConcState) : ConcState :=
  sched.foldl (stepConc quantity) s

/-! Concrete fixtures used by the counterexamples and witnesses. -/

def widgetA : Product := ⟨"WidgetA", 10, 5, true⟩

def widgetB : Product := ⟨"WidgetB", 7, 0, true⟩

def sampleItems : List OrderItem := [⟨1, "WidgetA", 10, 2, 20⟩]

/-- An order over two units of product 1, with the given status and payment
status. -/
def sampleOrder (st : OrderStatus) (ps : PaymentStatus) : Order :=
  { orderNumber := "ORD1"
    customer := 7
    items := sampleItems
    subtotal := 20
    tax := 2
    shippingCost := 5
    discount := 0
    total := 27
    currency := "USD"
    status := st
    payment := ⟨"paypal", ps, none, none, none, none⟩
    shipping := ⟨none, none⟩
    statusHistory := [] }

def sampleWorld (st : OrderStatus) (ps : PaymentStatus) : World :=
  ⟨[(1, widgetA)], [(1, sampleOrder st ps)], [7]⟩

def twoProductWorld : World := ⟨[(1, widgetA), (2, widgetB)], [], [7]⟩

def twoLineInput : OrderInput := ⟨[(1, 1), (2, 1)], "paypal", 0, 0, 0, "USD"⟩

/-- Stock decrements of a list of requested (productId, quantity) lines, in
order: the database effect of the lines that were processed before a failure. -/
def applyDecrements (w : World) (lines : List (Nat × Nat)) : World :=
  lines.foldl (fun acc pq => ProductRepository.updateStock acc pq.1 (-(pq.2 : Int))) w

/-- Total quantity the restoration loop adds back to one product. -/
def restoredQty : List OrderItem → Nat → Int
  | [], _ => 0
  | it :: rest, pid =>
      (if it.product = pid then (it.quantity : Int) else 0) + restoredQty rest pid

/-- All stored stock counters are non-negative. -/
def stocksNonneg (w : World) : Prop := ∀ q ∈ w.products, 0 ≤ q.2.stock

/-- The monetary invariant of one order document. -/
def totalsInvariant (o : Order) : Prop :=
  o.subtotal = itemsTotal o.items ∧
  o.total = o.subtotal + o.tax + o.shippingCost - o.discount

/-- The monetary invariant of every persisted order. -/
def worldTotalsOK (w : World) : Prop := ∀ q ∈ w.orders, totalsInvariant q.2

/-! Association-list lemmas. -/

theorem lookup_adjust {α : Type} (l : List (Nat × α)) (k k2 : Nat) (f : α → α) :
    lookupList (adjustList l k f) k2 =
      if k2 = k then (lookupList l k).map f else lookupList l k2 := by
  induction l with
  | nil => simp [adjustList, lookupList]
  | cons hd tl ih =>
    obtain ⟨k0, v0⟩ := hd
    by_cases h0 : k0 = k
    · subst h0
      by_cases h2 : k2 = k0
      · subst h2
        simp [adjustList, lookupList]
      · simp [adjustList, lookupList, h2, Ne.symm h2]
    · by_cases h2 : k0 = k2
      · subst h2
        simp [adjustList, lookupList, h0, Ne.symm h0]
      · simp [adjustList, lookupList, h0, h2, ih]

theorem lookup_mem {α : Type} {l : List (Nat × α)} {k : Nat} {v : α}
    (h : lookupList l k = some v) : (k, v) ∈ l := by
  induction l with
  | nil => simp [lookupList] at h
  | cons hd tl ih =>
    obtain ⟨k0, v0⟩ := hd
    by_cases h0 : k0 = k
    · subst h0
      simp [lookupList] at h
      simp [h]
    · simp [lookupList, h0] at h
      exact List.mem_cons_of_mem _ (ih h)

theorem adjust_mem {α : Type} {l : List (Nat × α)} {k : Nat} {f : α → α} {q : Nat × α}
    (h : q ∈ adjustList l k f) :
    q ∈ l ∨ ∃ v, lookupList l k = some v ∧ q = (k, f v) := by
  induction l with
  | nil => simp [adjustList] at h
  | cons hd tl ih =>
    obtain ⟨k0, v0⟩ := hd
    by_cases h0 : k0 = k
    · subst h0
      simp [adjustList] at h
      rcases h with h | h
      · exact Or.inr ⟨v0, by simp [lookupList], by simp [h]⟩
      · exact Or.inl (List.mem_cons_of_mem _ h)
    · simp [adjustList, h0] at h
      rcases h with h | h
      · exact Or.inl (by simp [h])
      · rcases ih h with h1 | ⟨v, hv, hq⟩
        · exact Or.inl (List.mem_cons_of_mem _ h1)
        · exact Or.inr ⟨v, by simp [lookupList, h0, hv], hq⟩

/-! How each database helper changes the world. -/

theorem updateStock_orders (w : World) (id : Nat) (d : Int) :
    (ProductRepository.updateStock w id d).orders = w.orders := rfl

theorem persist_products (w : World) (id : Nat) (o : Order) :
    (OrderRepository.persist w id o).products = w.products := rfl

theorem persist_findById {w : World} {id : Nat} {o0 : Order} (o : Order)
    (h : OrderRepository.findById w id = some o0) :
    OrderRepository.findById (OrderRepository.persist w id o) id = some o := by
  unfold OrderRepository.findById OrderRepository.persist at *
  simp [lookup_adjust, h]

theorem updateStock_findById (w : World) (id pid : Nat) (d : Int) :
    ProductRepository.findById (ProductRepository.updateStock w id d) pid =
      if pid = id then (ProductRepository.findById w id).map
        (fun p => { p with stock := p.stock + d })
      else ProductRepository.findById w pid := by
  unfold ProductRepository.findById ProductRepository.updateStock
  simp [lookup_adjust]

theorem restoreStock_orders (w : World) (items : List OrderItem) :
    (restoreStock w items).orders = w.orders := by
  induction items generalizing w with
  | nil => rfl
  | cons it rest ih => exact (ih (ProductRepository.updateStock w it.product it.quantity))

theorem restoreStock_findOrder (w : World) (items : List OrderItem) (oid : Nat) :
    OrderRepository.findById (restoreStock w items) oid = OrderRepository.findById w oid := by
  unfold OrderRepository.findById
  rw [restoreStock_orders]

theorem restoreStock_findById (items : List OrderItem) (w : World) (pid : Nat) :
    ProductRepository.findById (restoreStock w items) pid =
      (ProductRepository.findById w pid).map
        (fun p => { p with stock := p.stock + restoredQty items pid }) := by
  induction items generalizing w with
  | nil =>
    cases h : ProductRepository.findById w pid <;>
      simp [restoreStock, restoredQty, h]
  | cons it rest ih =>
    show ProductRepository.findById
        (restoreStock (ProductRepository.updateStock w it.product it.quantity) rest) pid = _
    rw [ih, updateStock_findById]
    by_cases hp : pid = it.product
    · subst hp
      cases h : ProductRepository.findById w it.product <;>
        simp [restoredQty, h, add_assoc]
    · cases h : ProductRepository.findById w pid <;>
        simp [restoredQty, h, hp, Ne.symm hp]

theorem applyDecrements_orders (w : World) (lines : List (Nat × Nat)) :
    (applyDecrements w lines).orders = w.orders := by
  induction lines generalizing w with
  | nil => rfl
  | cons pq rest ih =>
    exact (ih (ProductRepository.updateStock w pq.1 (-(pq.2 : Int))))

theorem createOrderLoop_orders (lines : List (Nat × Nat)) (w : World)
    (acc : List OrderItem) (sub : ℚ) :
    ((createOrderLoop w lines acc sub).1).orders = w.orders := by
  induction lines generalizing w acc sub with
  | nil => rfl
  | cons pq rest ih =>
    obtain ⟨pid, qty⟩ := pq
    unfold createOrderLoop
    cases hf : ProductRepository.findById w pid with
    | none => rfl
    | some product =>
      by_cases hs : product.stock < (qty : Int)
      · simp only [if_pos hs]
      · simp only [if_neg hs]
        exact ih _ _ _

theorem createOrderLoop_error {lines : List (Nat × Nat)} {w w2 : World}
    {acc : List OrderItem} {sub : ℚ} {e : JsError}
    (h : createOrderLoop w lines acc sub = (w2, Except.error e)) :
    ∃ pre post, lines = pre ++ post ∧ w2 = applyDecrements w pre := by
  induction lines generalizing w acc sub with
  | nil =>
    unfold createOrderLoop at h
    simp at h
  | cons pq rest ih =>
    obtain ⟨pid, qty⟩ := pq
    unfold createOrderLoop at h
    cases hf : ProductRepository.findById w pid with
    | none =>
      simp only [hf] at h
      refine ⟨[], (pid, qty) :: rest, rfl, ?_⟩
      simpa [applyDecrements] using (congrArg Prod.fst h).symm
    | some product =>
      simp only [hf] at h
      by_cases hs : product.stock < (qty : Int)
      · rw [if_pos hs] at h
        refine ⟨[], (pid, qty) :: rest, rfl, ?_⟩
        simpa [applyDecrements] using (congrArg Prod.fst h).symm
      · rw [if_neg hs] at h
        obtain ⟨pre, post, hsplit, hw⟩ := ih h
        refine ⟨(pid, qty) :: pre, post, by simp [hsplit], ?_⟩
        exact hw

theorem worldTotalsOK_persist {w : World} (h : worldTotalsOK w) {o : Order}
    (ho : totalsInvariant o) (id : Nat) :
    worldTotalsOK (OrderRepository.persist w id o) := by
  intro q hq
  rcases adjust_mem hq with hmem | ⟨v, _, hqv⟩
  · exact h q hmem
  · subst hqv
    exact ho

theorem worldTotalsOK_of_orders_eq {w1 w2 : World} (he : w2.orders = w1.orders)
    (h : worldTotalsOK w1) : worldTotalsOK w2 :=
  fun q hq => h q (he ▸ hq)

/-! Fields of a saved order document. -/

theorem save_status (ls : OrderStatus) (now : Nat) (o : Order) :
    (Order.save ls now o).status = o.status := by
  unfold Order.save presaveStatusHistory presaveTotals
  split <;> rfl

theorem save_payment (ls : OrderStatus) (now : Nat) (o : Order) :
    (Order.save ls now o).payment = o.payment := by
  unfold Order.save presaveStatusHistory presaveTotals
  split <;> rfl

theorem save_items (ls : OrderStatus) (now : Nat) (o : Order) :
    (Order.save ls now o).items = o.items := by
  unfold Order.save presaveStatusHistory presaveTotals
  split <;> rfl

theorem save_customer (ls : OrderStatus) (now : Nat) (o : Order) :
    (Order.save ls now o).customer = o.customer := by
  unfold Order.save presaveStatusHistory presaveTotals
  split <;> rfl

theorem save_subtotal (ls : OrderStatus) (now : Nat) (o : Order) :
    (Order.save ls now o).subtotal = itemsTotal o.items := by
  unfold Order.save presaveStatusHistory presaveTotals
  split <;> rfl

theorem save_total (ls : OrderStatus) (now : Nat) (o : Order) :
    (Order.save ls now o).total = itemsTotal o.items + o.tax + o.shippingCost - o.discount := by
  unfold Order.save presaveStatusHistory presaveTotals
  split <;> rfl

theorem save_history (ls : OrderStatus) (now : Nat) (o : Order) :
    (Order.save ls now o).statusHistory =
      if o.status ≠ ls then o.statusHistory ++ [⟨o.status, now, none, none⟩]
      else o.statusHistory := by
  unfold Order.save presaveStatusHistory presaveTotals
  split <;> simp_all

theorem totalsInvariant_save (ls : OrderStatus) (now : Nat) (o : Order) :
    totalsInvariant (Order.save ls now o) := by
  constructor
  · rw [save_subtotal, save_items]
  · rw [save_total, save_subtotal]
    have htax : (Order.save ls now o).tax = o.tax := by
      unfold Order.save presaveStatusHistory presaveTotals
      split <;> rfl
    have hship : (Order.save ls now o).shippingCost = o.shippingCost := by
      unfold Order.save presaveStatusHistory presaveTotals
      split <;> rfl
    have hdisc : (Order.save ls now o).discount = o.discount := by
      unfold Order.save presaveStatusHistory presaveTotals
      split <;> rfl
    rw [htax, hship, hdisc]

theorem totalsInvariant_saveNew (now : Nat) (o : Order) :
    totalsInvariant (Order.saveNew now o) := by
  constructor <;> rfl

/-! Preservation of the non-negative-stock invariant. -/

theorem stocksNonneg_updateStock_incr {w : World} (h : stocksNonneg w)
    (id : Nat) {d : Int} (hd : 0 ≤ d) :
    stocksNonneg (ProductRepository.updateStock w id d) := by
  intro q hq
  rcases adjust_mem hq with hmem | ⟨v, hv, hqv⟩
  · exact h q hmem
  · have := h (id, v) (lookup_mem hv)
    subst hqv
    simp only at this ⊢
    omega

theorem stocksNonneg_restoreStock {w : World} (h : stocksNonneg w)
    (items : List OrderItem) : stocksNonneg (restoreStock w items) := by
  induction items generalizing w with
  | nil => exact h
  | cons it rest ih =>
    exact ih (stocksNonneg_updateStock_incr h it.product (by positivity))

theorem stocksNonneg_persist {w : World} (h : stocksNonneg w) (id : Nat) (o : Order) :
    stocksNonneg (OrderRepository.persist w id o) := h

theorem stocksNonneg_createOrderLoop {w : World} (h : stocksNonneg w)
    (lines : List (Nat × Nat)) (acc : List OrderItem) (sub : ℚ) :
    stocksNonneg (createOrderLoop w lines acc sub).1 := by
  induction lines generalizing w acc sub with
  | nil => exact h
  | cons pq rest ih =>
    obtain ⟨pid, qty⟩ := pq
    unfold createOrderLoop
    cases hf : ProductRepository.findById w pid with
    | none => exact h
    | some product =>
      by_cases hs : product.stock < (qty : Int)
      · simp only [if_pos hs]
        exact h
      · simp only [if_neg hs]
        apply ih
        intro q hq
        rcases adjust_mem hq with hmem | ⟨v, hv, hqv⟩
        · exact h q hmem
        · unfold ProductRepository.findById at hf
          rw [hf] at hv
          cases hv
          subst hqv
          simp only
          omega

/-!
Claim theorems. Each claim from the specification is settled below against
the embedded code.
-/

/-- Claim C1 counterexample: a two-line order whose second line fails the stock
check returns an InsufficientStock error, yet the first line has already
decremented WidgetA from 5 to 4 and the decrement is not rolled back; no order
document is persisted. -/
theorem C1_counterexample :
    (OrderService.createOrder twoProductWorld twoLineInput 7 0).2 =
      Except.error (JsError.appError "Insufficient stock for WidgetB. Available: 0" 400) ∧
    ProductRepository.findById (OrderService.createOrder twoProductWorld twoLineInput 7 0).1 1 =
      some { widgetA with stock := 4 } ∧
    widgetA.stock = 5 ∧
    (OrderService.createOrder twoProductWorld twoLineInput 7 0).1.orders = [] :=
  ⟨rfl, rfl, rfl, rfl⟩

/-- Claim C1 amended: when createOrder fails, no order document is persisted,
but the stock decrements already applied for the line items processed before
the failure are left in place (the resulting database is the initial one with
the decrements of a prefix of the requested lines applied, with no rollback). -/
theorem C1_amended (w : World) (input : OrderInput) (cid now : Nat) (e : JsError)
    (h : (OrderService.createOrder w input cid now).2 = Except.error e) :
    (OrderService.createOrder w input cid now).1.orders = w.orders ∧
    ∃ pre post, input.items = pre ++ post ∧
      (OrderService.createOrder w input cid now).1 = applyDecrements w pre := by
  unfold OrderService.createOrder at h ⊢
  cases hv : validateOrder input with
  | some msg =>
    exact ⟨rfl, [], input.items, rfl, rfl⟩
  | none =>
    simp only [hv] at h ⊢
    cases hu : UserRepository.findById w cid with
    | none =>
      exact ⟨rfl, [], input.items, rfl, rfl⟩
    | some u =>
      simp only [hu] at h ⊢
      cases hl : createOrderLoop w input.items [] 0 with
      | mk w1 r =>
        cases r with
        | error e2 =>
          simp only [hl]
          constructor
          · have := createOrderLoop_orders input.items w [] 0
            rw [hl] at this
            exact this
          · obtain ⟨pre, post, hsplit, hw⟩ := createOrderLoop_error hl
            exact ⟨pre, post, hsplit, hw⟩
        | ok pr =>
          simp only [hl] at h
          simp at h

/-- Claim C1 amended, witness at the concrete two-line order. -/
theorem C1_amended_witness :
    (OrderService.createOrder twoProductWorld twoLineInput 7 0).1.orders =
      twoProductWorld.orders ∧
    ∃ pre post, twoLineInput.items = pre ++ post ∧
      (OrderService.createOrder twoProductWorld twoLineInput 7 0).1 =
        applyDecrements twoProductWorld pre :=
  C1_amended twoProductWorld twoLineInput 7 0
    (JsError.appError "Insufficient stock for WidgetB. Available: 0" 400) rfl

/-- Claim C3 counterexample: two interleaved createOrder calls each requesting
the last unit of a product with stock 1 can both pass the stock check before
either decrements; both report success and the final stock is -1, which is
negative. -/
theorem C3_counterexample :
    runConc 1 [true, false, true, false] ⟨1, .start, .start⟩ =
      ⟨-1, .finished true, .finished true⟩ ∧
    (-1 : Int) < 0 :=
  ⟨rfl, by norm_num⟩

/-- Claim C3 amended: under sequential (non-interleaved) execution, stock stays
non-negative across any sequence of createOrder, cancelOrder and processRefund
calls; the concurrent guarantee fails as the counterexample shows. -/
theorem C3_amended (w : World) (h : stocksNonneg w) :
    (∀ input cid now, stocksNonneg (OrderService.createOrder w input cid now).1) ∧
    (∀ oid uid role reason now,
      stocksNonneg (OrderService.cancelOrder w oid uid role reason now).1) ∧
    (∀ oid amt now, stocksNonneg (OrderService.processRefund w oid amt now).1) := by
  refine ⟨fun input cid now => ?_, fun oid uid role reason now => ?_, fun oid amt now => ?_⟩
  · unfold OrderService.createOrder
    cases hv : validateOrder input with
    | some msg => exact h
    | none =>
      cases hu : UserRepository.findById w cid with
      | none => exact h
      | some u =>
        cases hl : createOrderLoop w input.items [] 0 with
        | mk w1 r =>
          have h1 : stocksNonneg w1 := by
            have := stocksNonneg_createOrderLoop h input.items [] 0
            rw [hl] at this
            exact this
          cases r with
          | error e2 => exact h1
          | ok pr => exact fun q hq => h1 q hq
  · unfold OrderService.cancelOrder
    cases hf : OrderRepository.findById w oid with
    | none => exact h
    | some order =>
      by_cases hauth : role ≠ "admin" ∧ order.customer ≠ uid
      · simp only [if_pos hauth]
        exact h
      · simp only [if_neg hauth]
        by_cases hgate : ¬ (order.status = .pending ∨ order.status = .confirmed)
        · simp only [if_pos hgate]
          exact h
        · simp only [if_neg hgate]
          cases hup : order.updateStatus .cancelled (some uid)
              (some (reason.getD "Order cancelled by customer")) now with
          | error e2 => exact h
          | ok updated =>
            have h2 : stocksNonneg
                (restoreStock (OrderRepository.persist w oid updated) order.items) :=
              stocksNonneg_restoreStock (stocksNonneg_persist h oid updated) order.items
            by_cases hpay : order.payment.status = .completed
            · simp only [if_pos hpay]
              cases hcur : OrderRepository.findById
                  (restoreStock (OrderRepository.persist w oid updated) order.items) oid with
              | none => exact h2
              | some current =>
                exact stocksNonneg_persist h2 oid (current.processRefund order.total now)
            · simp only [if_neg hpay]
              exact h2
  · unfold OrderService.processRefund
    cases hf : OrderRepository.findById w oid with
    | none => exact h
    | some order =>
      by_cases hps : order.payment.status ≠ .completed
      · simp only [if_pos hps]
        exact h
      · simp only [if_neg hps]
        by_cases hx : order.total < amt
        · simp only [if_pos hx]
          exact h
        · simp only [if_neg hx]
          exact stocksNonneg_restoreStock
            (stocksNonneg_persist h oid (order.processRefund amt now)) order.items

/-- Claim C3 amended, witness: stock non-negativity is preserved at the
concrete two-product database for one call of each kind. -/
theorem C3_amended_witness :
    stocksNonneg (OrderService.createOrder twoProductWorld twoLineInput 7 0).1 ∧
    stocksNonneg (OrderService.cancelOrder twoProductWorld 1 7 "customer" none 0).1 ∧
    stocksNonneg (OrderService.processRefund twoProductWorld 1 5 0).1 :=
  ⟨(C3_amended twoProductWorld (by unfold stocksNonneg; decide)).1 twoLineInput 7 0,
   (C3_amended twoProductWorld (by unfold stocksNonneg; decide)).2.1 1 7 "customer" none 0,
   (C3_amended twoProductWorld (by unfold stocksNonneg; decide)).2.2 1 5 0⟩

/-- Claim C2 counterexample: the service-level updateOrderStatus surfaces the
same fixed error, Failed to update order status with code 500, for two
different illegal (current, requested) pairs - delivered to shipped and
cancelled to confirmed - so the surfaced error names neither the current nor
the requested status. -/
theorem C2_counterexample :
    (OrderService.updateOrderStatus (sampleWorld .delivered .completed) 1 .shipped
        none none 3).2 =
      Except.error (JsError.appError "Failed to update order status" 500) ∧
    (OrderService.updateOrderStatus (sampleWorld .cancelled .pending) 1 .confirmed
        none none 3).2 =
      Except.error (JsError.appError "Failed to update order status" 500) :=
  ⟨rfl, rfl⟩

/-- Claim C2 amended: updateOrderStatus succeeds exactly when the requested
status is listed for the current status in the transition table; for a pair not
in the table the model-level updateStatus throws an error naming both statuses,
but the service catch block wraps it into the fixed error Failed to update
order status (500) that names neither, and the database is left completely
unchanged. -/
theorem C2_amended (w : World) (oid : Nat) (s : OrderStatus) (ub : Option Nat)
    (nt : Option String) (now : Nat) (o : Order)
    (hfind : OrderRepository.findById w oid = some o) :
    (s ∈ validTransitions o.status →
      ∃ o2, (OrderService.updateOrderStatus w oid s ub nt now).2 = Except.ok o2 ∧
        o2.status = s) ∧
    (s ∉ validTransitions o.status →
      OrderService.updateOrderStatus w oid s ub nt now
        = (w, Except.error (JsError.appError "Failed to update order status" 500)) ∧
      o.updateStatus s ub nt now
        = Except.error (JsError.plainError (transitionErrorMessage o.status s))) := by
  constructor
  · intro hmem
    refine ⟨Order.save o.status now
      { o with status := s, statusHistory := o.statusHistory ++ [⟨s, now, ub, nt⟩] },
      ?_, ?_⟩
    · unfold OrderService.updateOrderStatus
      simp only [hfind, Order.updateStatus, if_pos hmem]
    · rw [save_status]
  · intro hmem
    have hup : o.updateStatus s ub nt now
        = Except.error (JsError.plainError (transitionErrorMessage o.status s)) := by
      unfold Order.updateStatus
      rw [if_neg hmem]
    refine ⟨?_, hup⟩
    unfold OrderService.updateOrderStatus
    simp only [hfind, hup, wrapCatch]

/-- Claim C2 amended, witness: a delivered order refuses the shipped request;
the model error names both statuses and the service error is the generic one. -/
theorem C2_amended_witness :
    OrderService.updateOrderStatus (sampleWorld .delivered .completed) 1 .shipped
        none none 3
      = (sampleWorld .delivered .completed,
         Except.error (JsError.appError "Failed to update order status" 500)) ∧
    (sampleOrder .delivered .completed).updateStatus .shipped none none 3
      = Except.error (JsError.plainError
          (transitionErrorMessage .delivered .shipped)) :=
  (C2_amended (sampleWorld .delivered .completed) 1 .shipped none none 3
    (sampleOrder .delivered .completed) rfl).2 (by decide)

/-! Field lemmas for the model methods. -/

theorem processPayment_status_of_ne_pending {o : Order} (h : o.status ≠ .pending)
    (tx : String) (now : Nat) :
    (o.processPayment tx now).status = o.status := by
  unfold Order.processPayment
  simp only [h, if_neg, not_false_iff]
  rw [save_status]

theorem processPayment_customer (o : Order) (tx : String) (now : Nat) :
    (o.processPayment tx now).customer = o.customer := by
  unfold Order.processPayment
  by_cases h : o.status = .pending <;>
    simp only [h, if_pos, if_neg, not_false_iff] <;> rw [save_customer]

theorem processRefund_status (o : Order) (amt : ℚ) (now : Nat) :
    (o.processRefund amt now).status = .refunded := by
  unfold Order.processRefund
  rw [save_status]

theorem processRefund_payment (o : Order) (amt : ℚ) (now : Nat) :
    (o.processRefund amt now).payment =
      { o.payment with
        status := .refunded,
        refundDate := some now,
        refundAmount := some (if amt = 0 then o.total else amt) } := by
  unfold Order.processRefund
  rw [save_payment]

theorem processRefund_customer (o : Order) (amt : ℚ) (now : Nat) :
    (o.processRefund amt now).customer = o.customer := by
  unfold Order.processRefund
  rw [save_customer]

theorem addTracking_status_of_ne_shipped {o : Order} (h : o.status ≠ .shipped)
    (tn : String) (sd : Option Nat) (now : Nat) :
    (o.addTracking tn sd now).status = .shipped := by
  unfold Order.addTracking
  simp only [h, if_pos, ne_eq, not_false_iff]
  rw [save_status]

theorem updateStatus_ok {o : Order} {s : OrderStatus} {ub : Option Nat}
    {nt : Option String} {now : Nat} {o2 : Order}
    (h : o.updateStatus s ub nt now = Except.ok o2) :
    s ∈ validTransitions o.status ∧
    o2 = Order.save o.status now
      { o with status := s, statusHistory := o.statusHistory ++ [⟨s, now, ub, nt⟩] } := by
  unfold Order.updateStatus at h
  by_cases hmem : s ∈ validTransitions o.status
  · rw [if_pos hmem] at h
    cases h
    exact ⟨hmem, rfl⟩
  · rw [if_neg hmem] at h
    cases h

theorem valid_ne {t s : OrderStatus} (h : s ∈ validTransitions t) : s ≠ t := by
  have hall : ∀ t2 s2 : OrderStatus, s2 ∈ validTransitions t2 → s2 ≠ t2 := by decide
  exact hall t s h

/-- Claim C4 counterexample: addTracking on a cancelled order changes its
status to shipped, so a cancelled status is not terminal under addTracking. -/
theorem C4_counterexample :
    (OrderRepository.findById (sampleWorld .cancelled .pending) 1).map Order.status
      = some .cancelled ∧
    (OrderRepository.findById
        (OrderService.addTracking (sampleWorld .cancelled .pending) 1 "TRACK1" none 3).1
        1).map Order.status
      = some .shipped :=
  ⟨rfl, rfl⟩

/-- Claim C4 amended: for orders whose status is cancelled or refunded,
updateOrderStatus always fails with the generic wrapped error and changes
nothing, cancelOrder always fails and changes nothing, and processPayment
never changes the status; processRefund never changes the status of a refunded
order; addTracking, however, sets the status of any such order to shipped. -/
theorem C4_amended (w : World) (oid : Nat) (o : Order)
    (hfind : OrderRepository.findById w oid = some o)
    (hterm : o.status = .cancelled ∨ o.status = .refunded) :
    (∀ s ub nt now, OrderService.updateOrderStatus w oid s ub nt now
        = (w, Except.error (JsError.appError "Failed to update order status" 500))) ∧
    (∀ uid role reason now,
      (OrderService.cancelOrder w oid uid role reason now).1 = w ∧
      ∃ e, (OrderService.cancelOrder w oid uid role reason now).2 = Except.error e) ∧
    (∀ tx ok now,
      (OrderRepository.findById (OrderService.processPayment w oid tx ok now).1 oid).map
          Order.status = some o.status) ∧
    (o.status = .refunded → ∀ amt now,
      (OrderRepository.findById (OrderService.processRefund w oid amt now).1 oid).map
          Order.status = some .refunded) ∧
    (∀ tn sd now,
      (OrderRepository.findById (OrderService.addTracking w oid tn sd now).1 oid).map
          Order.status = some .shipped) := by
  have hnotp : o.status ≠ .pending := by rcases hterm with h | h <;> simp [h]
  have hnots : o.status ≠ .shipped := by rcases hterm with h | h <;> simp [h]
  have hempty : validTransitions o.status = [] := by
    rcases hterm with h | h <;> simp [h, validTransitions]
  refine ⟨fun s ub nt now => ?_, fun uid role reason now => ?_,
    fun tx ok now => ?_, fun href amt now => ?_, fun tn sd now => ?_⟩
  · have hup : o.updateStatus s ub nt now
        = Except.error (JsError.plainError (transitionErrorMessage o.status s)) := by
      unfold Order.updateStatus
      rw [hempty]
      simp
    unfold OrderService.updateOrderStatus
    simp only [hfind, hup, wrapCatch]
  · have hgate : ¬ (o.status = .pending ∨ o.status = .confirmed) := by
      rcases hterm with h | h <;> simp [h]
    have hres : OrderService.cancelOrder w oid uid role reason now
          = (w, Except.error (JsError.appError "Access denied" 403)) ∨
        OrderService.cancelOrder w oid uid role reason now
          = (w, Except.error (JsError.appError "Order cannot be cancelled at this stage" 400)) := by
      unfold OrderService.cancelOrder
      by_cases hauth : role ≠ "admin" ∧ o.customer ≠ uid
      · left
        simp only [hfind, if_pos hauth]
      · right
        simp only [hfind, if_neg hauth, if_pos hgate]
    rcases hres with h | h <;> rw [h] <;> exact ⟨rfl, _, rfl⟩
  · unfold OrderService.processPayment
    simp only [hfind]
    by_cases hps : o.payment.status = .completed
    · rw [if_pos hps]
      simp [hfind]
    · rw [if_neg hps]
      cases ok with
      | false =>
        rw [if_pos rfl]
        simp [hfind]
      | true =>
        rw [if_neg (by decide : ¬ (true = false))]
        rw [persist_findById (o.processPayment tx now) hfind]
        simp [processPayment_status_of_ne_pending hnotp]
  · unfold OrderService.processRefund
    simp only [hfind]
    by_cases hps : o.payment.status ≠ .completed
    · rw [if_pos hps]
      simp [hfind, href]
    · rw [if_neg hps]
      by_cases hx : o.total < amt
      · rw [if_pos hx]
        simp [hfind, href]
      · rw [if_neg hx]
        rw [restoreStock_findOrder, persist_findById (o.processRefund amt now) hfind]
        simp [processRefund_status]
  · unfold OrderService.addTracking
    simp only [hfind]
    rw [persist_findById (o.addTracking tn sd now) hfind]
    simp [addTracking_status_of_ne_shipped hnots]

/-- Claim C4 amended, witness at a concrete cancelled order. -/
theorem C4_amended_witness :
    OrderService.updateOrderStatus (sampleWorld .cancelled .pending) 1 .confirmed none none 3
      = (sampleWorld .cancelled .pending,
         Except.error (JsError.appError "Failed to update order status" 500)) ∧
    (OrderService.cancelOrder (sampleWorld .cancelled .pending) 1 7 "customer" none 3).1
      = sampleWorld .cancelled .pending ∧
    (OrderRepository.findById
        (OrderService.processPayment (sampleWorld .cancelled .pending) 1 "TX1" true 3).1
        1).map Order.status = some .cancelled ∧
    (OrderRepository.findById
        (OrderService.addTracking (sampleWorld .cancelled .pending) 1 "TRACK1" none 3).1
        1).map Order.status = some .shipped := by
  have h := C4_amended (sampleWorld .cancelled .pending) 1
    (sampleOrder .cancelled .pending) rfl (Or.inl rfl)
  exact ⟨h.1 .confirmed none none 3, (h.2.1 7 "customer" none 3).1,
    h.2.2.1 "TX1" true 3, h.2.2.2.2 "TRACK1" none 3⟩

theorem sampleWorld_totalsOK (st : OrderStatus) (ps : PaymentStatus) :
    worldTotalsOK (sampleWorld st ps) := by
  intro q hq
  rcases List.mem_singleton.mp hq with rfl
  constructor
  · show (20 : ℚ) = itemsTotal sampleItems
    norm_num [itemsTotal, sampleItems]
  · norm_num [sampleOrder]

theorem totalsInvariant_processPayment (o : Order) (tx : String) (now : Nat) :
    totalsInvariant (o.processPayment tx now) := by
  unfold Order.processPayment
  exact totalsInvariant_save _ _ _

theorem totalsInvariant_processRefund (o : Order) (amt : ℚ) (now : Nat) :
    totalsInvariant (o.processRefund amt now) := by
  unfold Order.processRefund
  exact totalsInvariant_save _ _ _

theorem totalsInvariant_addTracking (o : Order) (tn : String) (sd : Option Nat) (now : Nat) :
    totalsInvariant (o.addTracking tn sd now) := by
  unfold Order.addTracking
  exact totalsInvariant_save _ _ _

theorem totalsInvariant_updateStatus {o : Order} {s : OrderStatus} {ub : Option Nat}
    {nt : Option String} {now : Nat} {o2 : Order}
    (h : o.updateStatus s ub nt now = Except.ok o2) : totalsInvariant o2 := by
  rw [(updateStatus_ok h).2]
  exact totalsInvariant_save _ _ _

/-- Claim C5 confirmed: the totals pre-save hook recomputes subtotal as the sum
of the line totals and total as subtotal + tax + shippingCost - discount on
every save, so after any of the six service operations every persisted order
satisfies the monetary invariant. -/
theorem C5_confirmed (w : World) (h : worldTotalsOK w) :
    (∀ input cid now, worldTotalsOK (OrderService.createOrder w input cid now).1) ∧
    (∀ oid s ub nt now, worldTotalsOK (OrderService.updateOrderStatus w oid s ub nt now).1) ∧
    (∀ oid tx ok now, worldTotalsOK (OrderService.processPayment w oid tx ok now).1) ∧
    (∀ oid amt now, worldTotalsOK (OrderService.processRefund w oid amt now).1) ∧
    (∀ oid tn sd now, worldTotalsOK (OrderService.addTracking w oid tn sd now).1) ∧
    (∀ oid uid role reason now,
      worldTotalsOK (OrderService.cancelOrder w oid uid role reason now).1) := by
  refine ⟨fun input cid now => ?_, fun oid s ub nt now => ?_, fun oid tx ok now => ?_,
    fun oid amt now => ?_, fun oid tn sd now => ?_, fun oid uid role reason now => ?_⟩
  · unfold OrderService.createOrder
    cases hv : validateOrder input with
    | some msg => exact h
    | none =>
      cases hu : UserRepository.findById w cid with
      | none => exact h
      | some u =>
        cases hl : createOrderLoop w input.items [] 0 with
        | mk w1 r =>
          have h1 : worldTotalsOK w1 := by
            refine worldTotalsOK_of_orders_eq ?_ h
            have := createOrderLoop_orders input.items w [] 0
            rw [hl] at this
            exact this
          cases r with
          | error e2 => exact h1
          | ok pr =>
            obtain ⟨processedItems, subtotal⟩ := pr
            intro q hq
            rcases List.mem_append.mp hq with hq1 | hq2
            · exact h1 q hq1
            · have : q.2 = Order.saveNew now
                  { orderNumber := ""
                    customer := cid
                    items := processedItems
                    subtotal := subtotal
                    tax := subtotal * input.taxRate
                    shippingCost := input.shippingCost
                    discount := input.discount
                    total := subtotal + subtotal * input.taxRate + input.shippingCost - input.discount
                    currency := input.currency
                    status := .pending
                    payment := ⟨input.paymentMethod, .pending, none, none, none, none⟩
                    shipping := ⟨none, none⟩
                    statusHistory := [] } := by
                rcases List.mem_singleton.mp hq2 with rfl
                rfl
              rw [this]
              exact totalsInvariant_saveNew _ _
  · unfold OrderService.updateOrderStatus
    cases hf : OrderRepository.findById w oid with
    | none => exact h
    | some order =>
      dsimp only
      cases hup : order.updateStatus s ub nt now with
      | error e => exact h
      | ok updated =>
        have h1 : worldTotalsOK (OrderRepository.persist w oid updated) :=
          worldTotalsOK_persist h (totalsInvariant_updateStatus hup) oid
        by_cases hcond : s = .cancelled ∧ order.status ≠ .cancelled
        · simp only [if_pos hcond]
          exact worldTotalsOK_of_orders_eq (restoreStock_orders _ _) h1
        · simp only [if_neg hcond]
          exact h1
  · unfold OrderService.processPayment
    cases hf : OrderRepository.findById w oid with
    | none => exact h
    | some order =>
      by_cases hps : order.payment.status = .completed
      · simp only [if_pos hps]
        exact h
      · simp only [if_neg hps]
        cases ok with
        | false => exact h
        | true =>
          exact worldTotalsOK_persist h (totalsInvariant_processPayment order tx now) oid
  · unfold OrderService.processRefund
    cases hf : OrderRepository.findById w oid with
    | none => exact h
    | some order =>
      by_cases hps : order.payment.status ≠ .completed
      · simp only [if_pos hps]
        exact h
      · simp only [if_neg hps]
        by_cases hx : order.total < amt
        · simp only [if_pos hx]
          exact h
        · simp only [if_neg hx]
          exact worldTotalsOK_of_orders_eq (restoreStock_orders _ _)
            (worldTotalsOK_persist h (totalsInvariant_processRefund order amt now) oid)
  · unfold OrderService.addTracking
    cases hf : OrderRepository.findById w oid with
    | none => exact h
    | some order =>
      exact worldTotalsOK_persist h (totalsInvariant_addTracking order tn sd now) oid
  · unfold OrderService.cancelOrder
    cases hf : OrderRepository.findById w oid with
    | none => exact h
    | some order =>
      by_cases hauth : role ≠ "admin" ∧ order.customer ≠ uid
      · simp only [if_pos hauth]
        exact h
      · simp only [if_neg hauth]
        by_cases hgate : ¬ (order.status = .pending ∨ order.status = .confirmed)
        · simp only [if_pos hgate]
          exact h
        · simp only [if_neg hgate]
          cases hup : order.updateStatus .cancelled (some uid)
              (some (reason.getD "Order cancelled by customer")) now with
          | error e => exact h
          | ok updated =>
            have h2 : worldTotalsOK
                (restoreStock (OrderRepository.persist w oid updated) order.items) :=
              worldTotalsOK_of_orders_eq (restoreStock_orders _ _)
                (worldTotalsOK_persist h (totalsInvariant_updateStatus hup) oid)
            by_cases hpay : order.payment.status = .completed
            · simp only [if_pos hpay]
              cases hcur : OrderRepository.findById
                  (restoreStock (OrderRepository.persist w oid updated) order.items) oid with
              | none => exact h2
              | some current =>
                exact worldTotalsOK_persist h2
                  (totalsInvariant_processRefund current order.total now) oid
            · simp only [if_neg hpay]
              exact h2

/-- Claim C5 confirmed, witness: the invariant holds after concrete calls on a
database whose one order satisfies it. -/
theorem C5_confirmed_witness :
    worldTotalsOK (OrderService.createOrder (sampleWorld .pending .pending)
      twoLineInput 7 0).1 ∧
    worldTotalsOK (OrderService.updateOrderStatus (sampleWorld .pending .pending)
      1 .confirmed none none 3).1 ∧
    worldTotalsOK (OrderService.cancelOrder (sampleWorld .confirmed .completed)
      1 7 "customer" none 3).1 := by
  have h1 := C5_confirmed (sampleWorld .pending .pending) (sampleWorld_totalsOK _ _)
  have h2 := C5_confirmed (sampleWorld .confirmed .completed) (sampleWorld_totalsOK _ _)
  exact ⟨h1.1 twoLineInput 7 0, h1.2.1 1 .confirmed none none 3,
    h2.2.2.2.2.2 1 7 "customer" none 3⟩

theorem findProduct_persist (w : World) (oid : Nat) (u : Order) (pid : Nat) :
    ProductRepository.findById (OrderRepository.persist w oid u) pid
      = ProductRepository.findById w pid := rfl

theorem restore_after_persist {w : World} {pid : Nat} {p : Product} (oid : Nat) (u : Order)
    (items : List OrderItem) (hp : ProductRepository.findById w pid = some p) :
    ProductRepository.findById (restoreStock (OrderRepository.persist w oid u) items) pid
      = some { p with stock := p.stock + restoredQty items pid } := by
  rw [restoreStock_findById, findProduct_persist, hp]
  rfl

/-- The success path of cancelOrder: found, authorized, and in a cancellable
status; the transition to cancelled always succeeds, stock is restored, and a
full refund is issued when the payment was completed. -/
theorem cancelOrder_success (w : World) (oid uid : Nat) (role : String)
    (reason : Option String) (now : Nat) (o : Order)
    (hfind : OrderRepository.findById w oid = some o)
    (hst : o.status = .pending ∨ o.status = .confirmed)
    (hauth : role = "admin" ∨ o.customer = uid) :
    OrderService.cancelOrder w oid uid role reason now =
      (let updated := Order.save o.status now
        { o with
          status := .cancelled,
          statusHistory := o.statusHistory ++
            [⟨.cancelled, now, some uid, some (reason.getD "Order cancelled by customer")⟩] }
       let w2 := restoreStock (OrderRepository.persist w oid updated) o.items
       if o.payment.status = .completed then
         (OrderRepository.persist w2 oid (updated.processRefund o.total now),
          Except.ok updated)
       else (w2, Except.ok updated)) := by
  have hauthn : ¬ (role ≠ "admin" ∧ o.customer ≠ uid) := by
    rcases hauth with h | h <;> simp [h]
  have hmem : OrderStatus.cancelled ∈ validTransitions o.status := by
    rcases hst with h | h <;> rw [h] <;> decide
  have hup : o.updateStatus .cancelled (some uid)
      (some (reason.getD "Order cancelled by customer")) now
      = Except.ok (Order.save o.status now
        { o with
          status := .cancelled,
          statusHistory := o.statusHistory ++
            [⟨.cancelled, now, some uid, some (reason.getD "Order cancelled by customer")⟩] }) := by
    unfold Order.updateStatus
    rw [if_pos hmem]
  unfold OrderService.cancelOrder
  simp only [hfind, if_neg hauthn, if_neg (not_not_intro hst), hup]
  by_cases hpay : o.payment.status = .completed
  · rw [if_pos hpay, if_pos hpay]
    rw [restoreStock_findOrder, persist_findById _ hfind]
  · rw [if_neg hpay, if_neg hpay]

/-- Claim C6 counterexample: cancelling a confirmed order with completed
payment leaves the persisted order with status refunded, not cancelled - the
automatic refund overwrites the cancelled status. -/
theorem C6_counterexample :
    (OrderRepository.findById
        (OrderService.cancelOrder (sampleWorld .confirmed .completed) 1 7 "customer" none 3).1
        1).map Order.status = some .refunded ∧
    (OrderRepository.findById
        (OrderService.cancelOrder (sampleWorld .confirmed .completed) 1 7 "customer" none 3).1
        1).map Order.status ≠ some .cancelled :=
  ⟨rfl, by decide⟩

/-- Claim C6 amended: cancelOrder on a confirmed order with completed payment
succeeds, restores every line quantity to the corresponding product stock and
issues a full refund (payment.status refunded, refundAmount equal to the order
total), but the persisted order ends with status refunded rather than
cancelled, because the automatic refund overwrites the cancelled status; only
the value returned to the caller still shows status cancelled. -/
theorem C6_amended (w : World) (oid uid : Nat) (role : String) (reason : Option String)
    (now : Nat) (o : Order)
    (hfind : OrderRepository.findById w oid = some o)
    (hst : o.status = .confirmed)
    (hauth : role = "admin" ∨ o.customer = uid)
    (hpay : o.payment.status = .completed)
    (hinv : totalsInvariant o) :
    (∃ ret, (OrderService.cancelOrder w oid uid role reason now).2 = Except.ok ret ∧
      ret.status = .cancelled) ∧
    (∃ fin, OrderRepository.findById (OrderService.cancelOrder w oid uid role reason now).1 oid
        = some fin ∧
      fin.status = .refunded ∧
      fin.payment.status = .refunded ∧
      fin.payment.refundAmount = some o.total ∧
      fin.payment.refundDate = some now) ∧
    (∀ pid p, ProductRepository.findById w pid = some p →
      ProductRepository.findById (OrderService.cancelOrder w oid uid role reason now).1 pid
        = some { p with stock := p.stock + restoredQty o.items pid }) := by
  have htot : (Order.save o.status now
      { o with
        status := .cancelled,
        statusHistory := o.statusHistory ++
          [⟨.cancelled, now, some uid, some (reason.getD "Order cancelled by customer")⟩] }).total
      = o.total := by
    rw [save_total]
    have h1 : o.subtotal = itemsTotal o.items := hinv.1
    have h2 : o.total = o.subtotal + o.tax + o.shippingCost - o.discount := hinv.2
    rw [h2, h1]
  rw [cancelOrder_success w oid uid role reason now o hfind (Or.inr hst) hauth, if_pos hpay]
  refine ⟨⟨Order.save o.status now
      { o with
        status := .cancelled,
        statusHistory := o.statusHistory ++
          [⟨.cancelled, now, some uid, some (reason.getD "Order cancelled by customer")⟩] },
      rfl, by rw [save_status]⟩,
    ⟨(Order.save o.status now
      { o with
        status := .cancelled,
        statusHistory := o.statusHistory ++
          [⟨.cancelled, now, some uid,
            some (reason.getD "Order cancelled by customer")⟩] }).processRefund o.total now,
      ?_, ?_, ?_, ?_, ?_⟩,
    fun pid p hp => ?_⟩
  · exact persist_findById _ (by
      rw [restoreStock_findOrder]
      exact persist_findById _ hfind)
  · exact processRefund_status _ _ _
  · rw [processRefund_payment]
  · rw [processRefund_payment]
    by_cases h0 : o.total = 0
    · rw [if_pos h0, htot]
    · rw [if_neg h0]
  · rw [processRefund_payment]
  · rw [findProduct_persist]
    exact restore_after_persist oid _ o.items hp

/-- Claim C6 amended, witness at the concrete confirmed and paid order. -/
theorem C6_amended_witness :
    (∃ ret, (OrderService.cancelOrder (sampleWorld .confirmed .completed)
        1 7 "customer" none 3).2 = Except.ok ret ∧ ret.status = .cancelled) ∧
    (∃ fin, OrderRepository.findById
        (OrderService.cancelOrder (sampleWorld .confirmed .completed)
          1 7 "customer" none 3).1 1 = some fin ∧
      fin.status = .refunded ∧
      fin.payment.status = .refunded ∧
      fin.payment.refundAmount = some (sampleOrder .confirmed .completed).total ∧
      fin.payment.refundDate = some 3) ∧
    ProductRepository.findById
        (OrderService.cancelOrder (sampleWorld .confirmed .completed)
          1 7 "customer" none 3).1 1
      = some { widgetA with stock := widgetA.stock + restoredQty sampleItems 1 } := by
  have h := C6_amended (sampleWorld .confirmed .completed) 1 7 "customer" none 3
    (sampleOrder .confirmed .completed) rfl rfl (Or.inr rfl) rfl
    ⟨by norm_num [sampleOrder, itemsTotal, sampleItems], by norm_num [sampleOrder]⟩
  exact ⟨h.1, h.2.1, h.2.2 1 widgetA rfl⟩

/-- Claim C7 confirmed: cancelling a confirmed order restores exactly the
ordered quantity of each product to its stock, and a second cancellation
attempt on the same order fails with no further stock change: the persisted
order is already in a terminal status, so the restoration fires only on the
first transition into cancelled/refunded. -/
theorem C7_confirmed (w : World) (oid uid : Nat) (role : String) (r1 r2 : Option String)
    (now now2 : Nat) (o : Order)
    (hfind : OrderRepository.findById w oid = some o)
    (hst : o.status = .confirmed)
    (hauth : role = "admin" ∨ o.customer = uid) :
    (∃ ret, (OrderService.cancelOrder w oid uid role r1 now).2 = Except.ok ret) ∧
    (∀ pid p, ProductRepository.findById w pid = some p →
      ProductRepository.findById (OrderService.cancelOrder w oid uid role r1 now).1 pid
        = some { p with stock := p.stock + restoredQty o.items pid }) ∧
    OrderService.cancelOrder (OrderService.cancelOrder w oid uid role r1 now).1
        oid uid role r2 now2
      = ((OrderService.cancelOrder w oid uid role r1 now).1,
         Except.error (JsError.appError "Order cannot be cancelled at this stage" 400)) := by
  have hauthn2 : ∀ x : Order, x.customer = o.customer →
      ¬ (role ≠ "admin" ∧ x.customer ≠ uid) := by
    intro x hx
    rcases hauth with h | h <;> simp [hx, h]
  rw [cancelOrder_success w oid uid role r1 now o hfind (Or.inr hst) hauth]
  by_cases hpay : o.payment.status = .completed
  · rw [if_pos hpay]
    refine ⟨⟨_, rfl⟩, fun pid p hp => ?_, ?_⟩
    · rw [findProduct_persist]
      exact restore_after_persist oid _ o.items hp
    · have hfind2 : OrderRepository.findById
          (OrderRepository.persist
            (restoreStock (OrderRepository.persist w oid
              (Order.save o.status now
                { o with
                  status := .cancelled,
                  statusHistory := o.statusHistory ++
                    [⟨.cancelled, now, some uid,
                      some (r1.getD "Order cancelled by customer")⟩] })) o.items)
            oid
            ((Order.save o.status now
              { o with
                status := .cancelled,
                statusHistory := o.statusHistory ++
                  [⟨.cancelled, now, some uid,
                    some (r1.getD "Order cancelled by customer")⟩] }).processRefund
              o.total now)) oid
          = some ((Order.save o.status now
              { o with
                status := .cancelled,
                statusHistory := o.statusHistory ++
                  [⟨.cancelled, now, some uid,
                    some (r1.getD "Order cancelled by customer")⟩] }).processRefund
              o.total now) := by
        exact persist_findById _ (by
          rw [restoreStock_findOrder]
          exact persist_findById _ hfind)
      unfold OrderService.cancelOrder
      simp only [hfind2]
      rw [if_neg (hauthn2 _ (by rw [processRefund_customer, save_customer]))]
      rw [if_pos (by rw [processRefund_status]; decide)]
  · rw [if_neg hpay]
    refine ⟨⟨_, rfl⟩, fun pid p hp => ?_, ?_⟩
    · exact restore_after_persist oid _ o.items hp
    · have hfind2 : OrderRepository.findById
          (restoreStock (OrderRepository.persist w oid
            (Order.save o.status now
              { o with
                status := .cancelled,
                statusHistory := o.statusHistory ++
                  [⟨.cancelled, now, some uid,
                    some (r1.getD "Order cancelled by customer")⟩] })) o.items) oid
          = some (Order.save o.status now
              { o with
                status := .cancelled,
                statusHistory := o.statusHistory ++
                  [⟨.cancelled, now, some uid,
                    some (r1.getD "Order cancelled by customer")⟩] }) := by
        rw [restoreStock_findOrder]
        exact persist_findById _ hfind
      unfold OrderService.cancelOrder
      simp only [hfind2]
      rw [if_neg (hauthn2 _ (by rw [save_customer]))]
      rw [if_pos (by rw [save_status]; simp)]

/-- Claim C7 confirmed, witness: the two reserved units of product 1 come back
once, and the second cancellation fails. -/
theorem C7_confirmed_witness :
    (∃ ret, (OrderService.cancelOrder (sampleWorld .confirmed .completed)
        1 7 "customer" none 3).2 = Except.ok ret) ∧
    ProductRepository.findById
        (OrderService.cancelOrder (sampleWorld .confirmed .completed)
          1 7 "customer" none 3).1 1
      = some { widgetA with stock := widgetA.stock + restoredQty sampleItems 1 } ∧
    OrderService.cancelOrder
        (OrderService.cancelOrder (sampleWorld .confirmed .completed)
          1 7 "customer" none 3).1 1 7 "customer" none 4
      = ((OrderService.cancelOrder (sampleWorld .confirmed .completed)
          1 7 "customer" none 3).1,
         Except.error (JsError.appError "Order cannot be cancelled at this stage" 400)) := by
  have h := C7_confirmed (sampleWorld .confirmed .completed) 1 7 "customer" none none 3 4
    (sampleOrder .confirmed .completed) rfl rfl (Or.inr rfl)
  exact ⟨h.1, h.2.1 1 widgetA rfl, h.2.2⟩

/-- Claim C8 confirmed: processPayment on an order whose payment is already
completed fails with the AlreadyPaid error before any mutation, so the
database - and with it the order status, payment fields and dates - is
unchanged. -/
theorem C8_confirmed (w : World) (oid : Nat) (tx : String) (ok : Bool) (now : Nat)
    (o : Order)
    (hfind : OrderRepository.findById w oid = some o)
    (hpaid : o.payment.status = .completed) :
    OrderService.processPayment w oid tx ok now
      = (w, Except.error (JsError.appError "Order payment already completed" 400)) ∧
    OrderRepository.findById (OrderService.processPayment w oid tx ok now).1 oid = some o := by
  have h1 : OrderService.processPayment w oid tx ok now
      = (w, Except.error (JsError.appError "Order payment already completed" 400)) := by
    unfold OrderService.processPayment
    simp only [hfind]
    rw [if_pos hpaid]
  refine ⟨h1, ?_⟩
  rw [h1]
  exact hfind

/-- Claim C8 confirmed, witness: a second payment on the concrete paid order
fails and the stored order is untouched. -/
theorem C8_confirmed_witness :
    OrderService.processPayment (sampleWorld .confirmed .completed) 1 "TX2" true 9
      = (sampleWorld .confirmed .completed,
         Except.error (JsError.appError "Order payment already completed" 400)) ∧
    OrderRepository.findById
        (OrderService.processPayment (sampleWorld .confirmed .completed) 1 "TX2" true 9).1 1
      = some (sampleOrder .confirmed .completed) :=
  C8_confirmed (sampleWorld .confirmed .completed) 1 "TX2" true 9
    (sampleOrder .confirmed .completed) rfl rfl

/-- Claim C9 counterexample: requesting a refund of 0 on an order with total 27
succeeds but records refundAmount 27 (the whole total), not the requested 0,
because of the fallback in refundAmount or this.total. -/
theorem C9_counterexample :
    Except.map (fun o => o.payment.refundAmount)
        (OrderService.processRefund (sampleWorld .delivered .completed) 1 0 5).2
      = Except.ok (some 27) ∧
    (27 : ℚ) ≠ 0 ∧
    (sampleOrder .delivered .completed).total = 27 :=
  ⟨rfl, by norm_num, rfl⟩

/-- Claim C9 amended: processRefund fails NotFound when the order is absent,
PaymentNotCompleted when the payment is not completed, and RefundExceedsTotal
when the requested amount exceeds the total, in each case leaving the database
unchanged; otherwise it succeeds, sets payment.status and the order status to
refunded, records refundDate, records refundAmount as the requested amount
except that a requested amount of exactly zero records the order total instead,
and restores every line quantity to the corresponding product stock. -/
theorem C9_amended (w : World) (oid : Nat) (amt : ℚ) (now : Nat) :
    (OrderRepository.findById w oid = none →
      OrderService.processRefund w oid amt now
        = (w, Except.error (JsError.appError "Order not found" 404))) ∧
    (∀ o, OrderRepository.findById w oid = some o →
      (o.payment.status ≠ .completed →
        OrderService.processRefund w oid amt now
          = (w, Except.error (JsError.appError "Cannot refund unpaid order" 400))) ∧
      (o.payment.status = .completed → o.total < amt →
        OrderService.processRefund w oid amt now
          = (w, Except.error (JsError.appError "Refund amount cannot exceed order total" 400))) ∧
      (o.payment.status = .completed → amt ≤ o.total →
        (OrderService.processRefund w oid amt now).2 = Except.ok (o.processRefund amt now) ∧
        OrderRepository.findById (OrderService.processRefund w oid amt now).1 oid
          = some (o.processRefund amt now) ∧
        (o.processRefund amt now).status = .refunded ∧
        (o.processRefund amt now).payment.status = .refunded ∧
        (o.processRefund amt now).payment.refundDate = some now ∧
        (o.processRefund amt now).payment.refundAmount
          = some (if amt = 0 then o.total else amt) ∧
        (∀ pid p, ProductRepository.findById w pid = some p →
          ProductRepository.findById (OrderService.processRefund w oid amt now).1 pid
            = some { p with stock := p.stock + restoredQty o.items pid }))) := by
  refine ⟨fun hnone => ?_, fun o hfind => ⟨fun hps => ?_, fun hps hx => ?_, fun hps hle => ?_⟩⟩
  · unfold OrderService.processRefund
    simp only [hnone]
  · unfold OrderService.processRefund
    simp only [hfind]
    rw [if_pos hps]
  · unfold OrderService.processRefund
    simp only [hfind]
    rw [if_neg (not_not_intro hps), if_pos hx]
  · have hred : OrderService.processRefund w oid amt now
        = (restoreStock (OrderRepository.persist w oid (o.processRefund amt now)) o.items,
           Except.ok (o.processRefund amt now)) := by
      unfold OrderService.processRefund
      simp only [hfind]
      rw [if_neg (not_not_intro hps), if_neg (not_lt.mpr hle)]
    rw [hred]
    refine ⟨rfl, ?_, processRefund_status o amt now, ?_, ?_, ?_, fun pid p hp => ?_⟩
    · rw [restoreStock_findOrder]
      exact persist_findById _ hfind
    · rw [processRefund_payment]
    · rw [processRefund_payment]
    · rw [processRefund_payment]
    · exact restore_after_persist oid _ o.items hp

/-- Claim C9 amended, witness: a refund of 5 on the concrete delivered and paid
order succeeds, records the requested amount, and restores the stock. -/
theorem C9_amended_witness :
    (OrderService.processRefund (sampleWorld .delivered .completed) 1 5 9).2
      = Except.ok ((sampleOrder .delivered .completed).processRefund 5 9) ∧
    ((sampleOrder .delivered .completed).processRefund 5 9).payment.refundAmount
      = some (if (5 : ℚ) = 0 then (sampleOrder .delivered .completed).total else 5) ∧
    ProductRepository.findById
        (OrderService.processRefund (sampleWorld .delivered .completed) 1 5 9).1 1
      = some { widgetA with stock := widgetA.stock + restoredQty sampleItems 1 } := by
  have h := ((C9_amended (sampleWorld .delivered .completed) 1 5 9).2
    (sampleOrder .delivered .completed) rfl).2.2 rfl (by norm_num [sampleOrder])
  exact ⟨h.1, h.2.2.2.2.2.1, h.2.2.2.2.2.2 1 widgetA rfl⟩

/-- Claim C10 confirmed: every successful status change through updateStatus,
the auto-confirm of processPayment, processRefund, or addTracking appends two
history entries with the same new status - one pushed explicitly by the method
and one by the pre-save status-tracking hook. -/
theorem C10_confirmed :
    (∀ (o : Order) (s : OrderStatus) (ub : Option Nat) (nt : Option String)
      (now : Nat) (o2 : Order),
      o.updateStatus s ub nt now = Except.ok o2 →
      ∃ e1 e2 : HistoryEntry, o2.statusHistory = o.statusHistory ++ [e1, e2] ∧
        e1.status = s ∧ e2.status = s) ∧
    (∀ (o : Order) (tx : String) (now : Nat), o.status = .pending →
      ∃ e1 e2 : HistoryEntry,
        (o.processPayment tx now).statusHistory = o.statusHistory ++ [e1, e2] ∧
        e1.status = .confirmed ∧ e2.status = .confirmed) ∧
    (∀ (o : Order) (amt : ℚ) (now : Nat), o.status ≠ .refunded →
      ∃ e1 e2 : HistoryEntry,
        (o.processRefund amt now).statusHistory = o.statusHistory ++ [e1, e2] ∧
        e1.status = .refunded ∧ e2.status = .refunded) ∧
    (∀ (o : Order) (tn : String) (sd : Option Nat) (now : Nat), o.status ≠ .shipped →
      ∃ e1 e2 : HistoryEntry,
        (o.addTracking tn sd now).statusHistory = o.statusHistory ++ [e1, e2] ∧
        e1.status = .shipped ∧ e2.status = .shipped) := by
  refine ⟨fun o s ub nt now o2 h => ?_, fun o tx now hp => ?_,
    fun o amt now hr => ?_, fun o tn sd now hs => ?_⟩
  · obtain ⟨hmem, rfl⟩ := updateStatus_ok h
    refine ⟨⟨s, now, ub, nt⟩, ⟨s, now, none, none⟩, ?_, rfl, rfl⟩
    rw [save_history, if_pos (valid_ne hmem)]
    simp
  · refine ⟨⟨.confirmed, now, none, some "Auto-confirmed after payment"⟩,
      ⟨.confirmed, now, none, none⟩, ?_, rfl, rfl⟩
    unfold Order.processPayment
    dsimp only
    rw [if_pos hp]
    rw [save_history, if_pos (by simp [hp])]
    simp
  · refine ⟨⟨.refunded, now, none,
      some ("Refunded $" ++ toString (if amt = 0 then o.total else amt))⟩,
      ⟨.refunded, now, none, none⟩, ?_, rfl, rfl⟩
    unfold Order.processRefund
    rw [save_history, if_pos (Ne.symm hr)]
    simp
  · refine ⟨⟨.shipped, now, none, some ("Tracking: " ++ tn)⟩,
      ⟨.shipped, now, none, none⟩, ?_, rfl, rfl⟩
    unfold Order.addTracking
    dsimp only
    rw [if_pos hs]
    rw [save_history, if_pos (Ne.symm hs)]
    simp

/-- Claim C10 confirmed, witness: the concrete pending order gains exactly two
confirmed entries through updateStatus. -/
theorem C10_confirmed_witness :
    ∃ e1 e2 : HistoryEntry,
      (Order.save (sampleOrder .pending .pending).status 4
        { sampleOrder .pending .pending with
          status := .confirmed,
          statusHistory := (sampleOrder .pending .pending).statusHistory ++
            [⟨.confirmed, 4, some 7, none⟩] }).statusHistory
        = (sampleOrder .pending .pending).statusHistory ++ [e1, e2] ∧
      e1.status = .confirmed ∧ e2.status = .confirmed :=
  C10_confirmed.1 (sampleOrder .pending .pending) .confirmed (some 7) none 4 _ rfl
